import Mathlib

/-!
# Realim — peer-to-peer whiteboard synchronization layer

Shallow embedding of the state-synchronization core of the Realim
collaborative whiteboard (`src/lib/store.ts`, `src/lib/p2p.ts`, host
determination in `src/components/Board.tsx`).

JavaScript plain objects (`Record<string, T>`) are embedded as
insertion-ordered association lists `List (String × T)`; the spread
operation `\x7b...a, ...b\x7d` is `spreadMerge`, which assigns each entry of
`b` over `a` in order, replacing an existing key in place (as JS does) and
appending a fresh key at the end.  JS numbers appearing in the modelled
code are timestamps and coordinates, embedded as `Int`.
-/

namespace Realim

/-- JS property read `r[k]`: first entry of the list with key `k`. -/
def getKey {α : Type} : List (String × α) → String → Option α
  | [], _ => none
  | (k', v) :: r, k => if k' = k then some v else getKey r k

/-- JS property assignment `\x7b...r, [k]: v\x7d`: replace the value of an
existing key in place, otherwise append the new entry. -/
def setKey {α : Type} : List (String × α) → String → α → List (String × α)
  | [], k, v => [(k, v)]
  | (k', v') :: r, k, v =>
    if k' = k then (k, v) :: r else (k', v') :: setKey r k v

/-- JS rest-destructuring `const \x7b [k]: _, ...rest \x7d = r`: drop the key. -/
def delKey {α : Type} (r : List (String × α)) (k : String) : List (String × α) :=
  r.filter (fun p => p.1 ≠ k)

/-- JS object spread `\x7b...a, ...b\x7d`: entries of `b` assigned over `a`
in order; on key collision the value from `b` wins. -/
def spreadMerge {α : Type} (a b : List (String × α)) : List (String × α) :=
  b.foldl (fun acc p => setKey acc p.1 p.2) a

/-- A JS object literal / JSON-decoded object has no duplicate keys. -/
def NodupKeys {α : Type} (r : List (String × α)) : Prop :=
  (r.map Prod.fst).Nodup

instance {α : Type} (r : List (String × α)) : Decidable (NodupKeys r) := by
  unfold NodupKeys; infer_instance

/-- Two records denote the same map: every key reads the same value. -/
def RecEquiv {α : Type} (a b : List (String × α)) : Prop :=
  ∀ k, getKey a k = getKey b k

/-- JS string truthiness of a `string | null` value (`!!s`): `null` and
the empty string are falsy. -/
def jsTruthy : Option String → Bool
  | none => false
  | some s => s ≠ ""

-- --- Basic record lemmas ---

theorem getKey_setKey_self {α : Type} (r : List (String × α)) (k : String) (v : α) :
    getKey (setKey r k v) k = some v := by
  induction r with
  | nil => simp [setKey, getKey]
  | cons p r ih =>
    by_cases h : p.1 = k
    · simp [setKey, h, getKey]
    · simp [setKey, h, getKey, ih]

theorem getKey_setKey_ne {α : Type} (r : List (String × α)) (k k' : String) (v : α)
    (h : k ≠ k') : getKey (setKey r k v) k' = getKey r k' := by
  induction r with
  | nil => simp [setKey, getKey, h]
  | cons p r ih =>
    by_cases hp : p.1 = k
    · simp [setKey, hp, getKey, h]
    · simp [setKey, hp, getKey, ih]

theorem getKey_eq_none_of_not_mem {α : Type} (r : List (String × α)) (k : String)
    (h : k ∉ r.map Prod.fst) : getKey r k = none := by
  induction r with
  | nil => rfl
  | cons p r ih =>
    simp only [List.map_cons, List.mem_cons] at h
    push_neg at h
    have hk : p.1 ≠ k := fun hh => h.1 hh.symm
    simp [getKey, hk, ih h.2]

theorem mem_of_getKey_eq_some {α : Type} (r : List (String × α)) (k : String) (v : α)
    (h : getKey r k = some v) : (k, v) ∈ r := by
  induction r with
  | nil => simp [getKey] at h
  | cons p r ih =>
    by_cases hp : p.1 = k
    · simp only [getKey, hp, if_pos rfl] at h
      cases h
      have hpk : (k, p.2) = p := by rw [← hp]
      rw [hpk]
      exact List.mem_cons_self p r
    · simp only [getKey, hp, if_false] at h
      exact List.mem_cons_of_mem _ (ih h)

theorem getKey_eq_some_of_mem_nodup {α : Type} (r : List (String × α)) (k : String)
    (v : α) (hn : NodupKeys r) (h : (k, v) ∈ r) : getKey r k = some v := by
  induction r with
  | nil => simp at h
  | cons p r ih =>
    unfold NodupKeys at hn
    simp only [List.map_cons, List.nodup_cons] at hn
    rcases List.mem_cons.mp h with h1 | h1
    · rw [← h1]
      simp [getKey]
    · have hk : p.1 ≠ k := by
        intro he
        exact hn.1 (he ▸ (List.mem_map.mpr ⟨(k, v), h1, rfl⟩))
      simp [getKey, hk, ih hn.2 h1]

/-- Merged lookup without any key-uniqueness assumption: a key is absent
from the merge exactly when it is absent from both sides. -/
theorem getKey_spreadMerge_eq_none_iff {α : Type} (a b : List (String × α)) (k : String) :
    getKey (spreadMerge a b) k = none ↔ getKey a k = none ∧ getKey b k = none := by
  induction b generalizing a with
  | nil => simp [spreadMerge, getKey]
  | cons p b ih =>
    show getKey (spreadMerge (setKey a p.1 p.2) b) k = none ↔ _
    rw [ih]
    by_cases hk : p.1 = k
    · subst hk
      simp [getKey_setKey_self, getKey]
    · rw [getKey_setKey_ne _ _ _ _ hk]
      simp [getKey, hk]

/-- A key absent from the incoming record keeps its local value. -/
theorem getKey_spreadMerge_of_absent {α : Type} (a b : List (String × α)) (k : String)
    (h : getKey b k = none) : getKey (spreadMerge a b) k = getKey a k := by
  induction b generalizing a with
  | nil => rfl
  | cons p b ih =>
    have hk : p.1 ≠ k := by
      intro he
      simp [getKey, he] at h
    show getKey (spreadMerge (setKey a p.1 p.2) b) k = _
    rw [ih _ (by simpa [getKey, hk] using h), getKey_setKey_ne _ _ _ _ hk]

/-- For a duplicate-free incoming record, a key present in it takes the
incoming value in the merge. -/
theorem getKey_spreadMerge_of_present {α : Type} (a b : List (String × α)) (k : String)
    (v : α) (hn : NodupKeys b) (h : getKey b k = some v) :
    getKey (spreadMerge a b) k = some v := by
  induction b generalizing a with
  | nil => simp [getKey] at h
  | cons p b ih =>
    unfold NodupKeys at hn
    simp only [List.map_cons, List.nodup_cons] at hn
    show getKey (spreadMerge (setKey a p.1 p.2) b) k = some v
    by_cases hk : p.1 = k
    · subst hk
      simp only [getKey, if_pos rfl] at h
      cases h
      rw [getKey_spreadMerge_of_absent _ _ _ (getKey_eq_none_of_not_mem _ _ hn.1)]
      exact getKey_setKey_self _ _ _
    · simp only [getKey, hk, if_false] at h
      exact ih _ hn.2 h

-- --- Data model (src/lib/store.ts) ---

/-- `export type ElementType = 'text' | 'image' | 'sticky' | 'music' | 'path'` -/
inductive ElementType where
  | text
  | image
  | sticky
  | music
  | path
  deriving DecidableEq, Repr

/-- `export interface BoardElement` (src/lib/store.ts).  Optional fields are
`Option`; JS numbers in the modelled code are timestamps and coordinates,
embedded as `Int`. -/
structure BoardElement where
  id : String
  type : ElementType
  x : Int
  y : Int
  content : String
  width : Option Int := none
  height : Option Int := none
  rotation : Option Int := none
  scale : Option Int := none
  font : Option String := none
  fontWeight : Option Int := none
  isPlaying : Option Bool := none
  playbackTime : Option Int := none
  lastSyncedAt : Option Int := none
  points : Option (List (Int × Int)) := none
  strokeColor : Option String := none
  strokeWidth : Option Int := none
  createdBy : String
  createdAt : Option Int := none
  lastModifiedAt : Option Int := none
  deriving DecidableEq, Repr

/-- `Partial<BoardElement>`: a field is `some` when the key is present in
the updates object.  Optional fields nest: a present key carries a value of
the field's (optional) type. -/
structure ElementUpdates where
  id : Option String := none
  type : Option ElementType := none
  x : Option Int := none
  y : Option Int := none
  content : Option String := none
  width : Option (Option Int) := none
  height : Option (Option Int) := none
  rotation : Option (Option Int) := none
  scale : Option (Option Int) := none
  font : Option (Option String) := none
  fontWeight : Option (Option Int) := none
  isPlaying : Option (Option Bool) := none
  playbackTime : Option (Option Int) := none
  lastSyncedAt : Option (Option Int) := none
  points : Option (Option (List (Int × Int))) := none
  strokeColor : Option (Option String) := none
  strokeWidth : Option (Option Int) := none
  createdBy : Option String := none
  createdAt : Option (Option Int) := none
  lastModifiedAt : Option (Option Int) := none
  deriving DecidableEq, Repr

/-- JS spread `\x7b...e, ...updates\x7d` on an element: a key present in
`updates` overrides the element's field. -/
def applyElementUpdates (e : BoardElement) (u : ElementUpdates) : BoardElement where
  id := u.id.getD e.id
  type := u.type.getD e.type
  x := u.x.getD e.x
  y := u.y.getD e.y
  content := u.content.getD e.content
  width := u.width.getD e.width
  height := u.height.getD e.height
  rotation := u.rotation.getD e.rotation
  scale := u.scale.getD e.scale
  font := u.font.getD e.font
  fontWeight := u.fontWeight.getD e.fontWeight
  isPlaying := u.isPlaying.getD e.isPlaying
  playbackTime := u.playbackTime.getD e.playbackTime
  lastSyncedAt := u.lastSyncedAt.getD e.lastSyncedAt
  points := u.points.getD e.points
  strokeColor := u.strokeColor.getD e.strokeColor
  strokeWidth := u.strokeWidth.getD e.strokeWidth
  createdBy := u.createdBy.getD e.createdBy
  createdAt := u.createdAt.getD e.createdAt
  lastModifiedAt := u.lastModifiedAt.getD e.lastModifiedAt

/-- `export interface UserCursor` (src/lib/store.ts). -/
structure UserCursor where
  x : Int
  y : Int
  userId : String
  username : String
  color : String
  deriving DecidableEq, Repr

/-- `Partial<UserCursor>`: a field is `some` when the key is present. -/
structure CursorUpdates where
  x : Option Int := none
  y : Option Int := none
  userId : Option String := none
  username : Option String := none
  color : Option String := none
  deriving DecidableEq, Repr

/-- Runtime shape of a stored cursor: the store computes
`\x7b ...(state.cursors[userId] || \x7b\x7d), ...cursor \x7d as UserCursor`, so the
stored object can miss fields; every field is optional here. -/
structure CursorObj where
  x : Option Int := none
  y : Option Int := none
  userId : Option String := none
  username : Option String := none
  color : Option String := none
  deriving DecidableEq, Repr

/-- The empty object `\x7b\x7d` used as fallback base of the cursor spread. -/
def emptyCursorObj : CursorObj := {}

/-- JS spread `\x7b...base, ...cursor\x7d` for cursors: keys present in the
updates override the base. -/
def cursorSpread (base : CursorObj) (u : CursorUpdates) : CursorObj where
  x := u.x.elim base.x some
  y := u.y.elim base.y some
  userId := u.userId.elim base.userId some
  username := u.username.elim base.username some
  color := u.color.elim base.color some

/-- A full `UserCursor` payload viewed as a `Partial<UserCursor>` whose
keys are all present (as in the `CURSOR_MOVE` handler call). -/
def cursorUpdatesOfFull (c : UserCursor) : CursorUpdates where
  x := some c.x
  y := some c.y
  userId := some c.userId
  username := some c.username
  color := some c.color

/-- A full `UserCursor` payload as a stored cursor object. -/
def cursorObjOfFull (c : UserCursor) : CursorObj where
  x := some c.x
  y := some c.y
  userId := some c.userId
  username := some c.username
  color := some c.color

/-- `export interface SavedRoom` (src/lib/store.ts). -/
structure SavedRoom where
  id : String
  lastVisited : Int
  deriving DecidableEq, Repr

/-- The fields of `BoardState` that the store actions read and write
(the action closures themselves are not data). -/
structure StoreState where
  roomId : Option String := none
  username : String := ""
  userId : String := ""
  isHost : Bool := false
  elements : List (String × BoardElement) := []
  cursors : List (String × CursorObj) := []
  peers : List String := []
  savedRooms : List SavedRoom := []
  deriving DecidableEq, Repr

-- --- Store actions (src/lib/store.ts) ---

/-- `setRoomId: (roomId) => set(\x7b roomId \x7d)` -/
def setRoomId (s : StoreState) (roomId : String) : StoreState :=
  { s with roomId := some roomId }

/-- `setUserInfo: (username) => set(\x7b username \x7d)` -/
def setUserInfo (s : StoreState) (username : String) : StoreState :=
  { s with username := username }

/-- `setIsHost: (isHost) => set(\x7b isHost \x7d)` -/
def setIsHost (s : StoreState) (isHost : Bool) : StoreState :=
  { s with isHost := isHost }

/-- `addElement`: `elements: \x7b ...state.elements, [element.id]: element \x7d` -/
def addElement (s : StoreState) (element : BoardElement) : StoreState :=
  { s with elements := setKey s.elements element.id element }

/-- `updateElement`: `if (!state.elements[id]) return state;` else spread
the updates over the stored element (a stored element object is always
truthy in JS, so the guard is exactly presence of the key). -/
def updateElement (s : StoreState) (id : String) (updates : ElementUpdates) : StoreState :=
  match getKey s.elements id with
  | none => s
  | some e => { s with elements := setKey s.elements id (applyElementUpdates e updates) }

/-- `deleteElement`: rest-destructuring drops the key. -/
def deleteElement (s : StoreState) (id : String) : StoreState :=
  { s with elements := delKey s.elements id }

/-- `updateCursor`: `[userId]: \x7b ...(state.cursors[userId] || \x7b\x7d), ...cursor \x7d` -/
def updateCursor (s : StoreState) (userId : String) (cursor : CursorUpdates) : StoreState :=
  { s with cursors :=
      (setKey s.cursors userId
        (cursorSpread ((getKey s.cursors userId).getD emptyCursorObj) cursor)) }

/-- `removeCursor`: rest-destructuring drops the key. -/
def removeCursor (s : StoreState) (userId : String) : StoreState :=
  { s with cursors := delKey s.cursors userId }

/-- `setElements: (elements) => set(\x7b elements \x7d)` -/
def setElements (s : StoreState) (elements : List (String × BoardElement)) : StoreState :=
  { s with elements := elements }

/-- `addPeer`: `peers: [...state.peers, peerId]` -/
def addPeer (s : StoreState) (peerId : String) : StoreState :=
  { s with peers := s.peers ++ [peerId] }

/-- `removePeer`: `peers: state.peers.filter((p) => p !== peerId)` -/
def removePeer (s : StoreState) (peerId : String) : StoreState :=
  { s with peers := s.peers.filter (fun p => p ≠ peerId) }

/-- `saveRoom`: move the id to the front with a fresh timestamp, keep 5.
`Date.now()` is passed in as `now`. -/
def saveRoom (s : StoreState) (id : String) (now : Int) : StoreState :=
  { s with savedRooms :=
      (⟨id, now⟩ :: s.savedRooms.filter (fun r => r.id ≠ id)).take 5 }

/-- `mergeElements`: `elements: \x7b ...state.elements, ...newElements \x7d` -/
def mergeElements (s : StoreState) (newElements : List (String × BoardElement)) : StoreState :=
  { s with elements := spreadMerge s.elements newElements }

-- --- P2P messages (src/lib/p2p.ts) ---

/-- The `Action` union of P2P messages (src/lib/p2p.ts).  A `SYNC_REQ`
password field is `none` when the payload carries no password (JSON
transport drops `undefined` keys). -/
inductive Action where
  | syncReq (password : Option String)
  | syncResp (elements : List (String × BoardElement))
  | accessDenied (reason : String)
  | addElement (element : BoardElement)
  | updateElement (id : String) (updates : ElementUpdates)
  | deleteElement (id : String)
  | cursorMove (payload : UserCursor)
  deriving DecidableEq, Repr

/-- A message the local peer emits via `sendAction`, paired by the
callers below with the target peer id it is sent to. -/
abbrev OutMsg := Action

-- --- P2P event handlers (src/lib/p2p.ts) ---

/-- `room.onPeerJoin` handler: add the peer, send it our cursor, then the
mesh-sync push decision (share when we have data and the board is public
or we are host; share the empty map when we are host of an empty board).
`hostPassword` is `localStorage.getItem(room_pass_roomId)`.  The React
`setIsConnected(true)` call touches no store state and is omitted. -/
def onPeerJoin (hostPassword : Option String) (s0 : StoreState) (peerId : String) :
    StoreState × List (OutMsg × String) :=
  let s := addPeer s0 peerId
  let cursorHello : OutMsg :=
    .cursorMove { x := 0, y := 0, userId := s.userId, username := s.username, color := "#8b5cf6" }
  let push : List (OutMsg × String) :=
    if s.elements ≠ [] then
      if jsTruthy hostPassword then
        if s.isHost then [(.syncResp s.elements, peerId)]
        else []
      else [(.syncResp s.elements, peerId)]
    else if s.isHost then [(.syncResp [], peerId)]
    else []
  (s, (cursorHello, peerId) :: push)

/-- `room.onPeerLeave` handler: `removePeer(peerId); removeCursor(peerId)`. -/
def onPeerLeave (s : StoreState) (peerId : String) : StoreState :=
  removeCursor (removePeer s peerId) peerId

/-- The `getAction` dispatcher (src/lib/p2p.ts).  Returns the store state
after the handler and the messages sent, each paired with its target.
The `localStorage.setItem(realim_is_host_roomId)` writes and the React
`setAccessDenied` flag updates touch no store state and are omitted.
`payload?.password === hostPassword` is strict JS equality: an absent
password never equals a (non-null) cached one. -/
def getActionHandler (hostPassword : Option String) (s : StoreState) (data : Action)
    (peerId : String) : StoreState × List (OutMsg × String) :=
  match data with
  | .syncReq password =>
    if jsTruthy hostPassword then
      if password = hostPassword then
        (setIsHost s true, [(.syncResp s.elements, peerId)])
      else
        (s, [(.accessDenied "Incorrect Password", peerId)])
    else
      if s.elements ≠ [] ∨ s.isHost then
        if s.elements = [] ∧ s.isHost then
          (setIsHost s true, [(.syncResp s.elements, peerId)])
        else
          (s, [(.syncResp s.elements, peerId)])
      else
        (s, [])
  | .syncResp elements => (mergeElements s elements, [])
  | .accessDenied _ => (s, [])
  | .addElement e => (addElement s e, [])
  | .updateElement id updates => (updateElement s id updates, [])
  | .deleteElement id => (deleteElement s id, [])
  | .cursorMove payload => (updateCursor s payload.userId (cursorUpdatesOfFull payload), [])

-- --- Host-flag setup effects ---

/-- Setup of the `useP2P` effect (src/lib/p2p.ts lines 36-47):
`isCreator = !!hostPassword || isHostMarker === 'true'`, and
`if (isCreator) store.setIsHost(true)`. -/
def p2pSetup (hostPassword isHostMarker : Option String) (s : StoreState) : StoreState :=
  if jsTruthy hostPassword ∨ isHostMarker = some "true" then setIsHost s true else s

/-- Host determination in the Board mount effect
(src/components/Board.tsx lines 152-165): creators set the flag, everyone
else clears it. -/
def boardHostSetup (hostPassword hostMarker : Option String) (s : StoreState) : StoreState :=
  if hostMarker = some "true" ∨ jsTruthy hostPassword then setIsHost s true
  else setIsHost s false

-- --- Reachable store states ---

/-- Store states reachable once the `useP2P` effect for a room has run,
with the room's cached local-storage values `hp` (room password) and
`hm` (is-host marker) fixed for the session.  Steps are the P2P event
handlers and every store action invoked elsewhere in the sources
(Board mount effect, local edit intents, the host claim on cached
content). -/
inductive Reach (hp hm : Option String) : StoreState → Prop where
  | setup (s0 : StoreState) : Reach hp hm (p2pSetup hp hm s0)
  | board {s : StoreState} : Reach hp hm s → Reach hp hm (boardHostSetup hp hm s)
  | peerJoin {s : StoreState} (peerId : String) :
      Reach hp hm s → Reach hp hm (onPeerJoin hp s peerId).1
  | peerLeave {s : StoreState} (peerId : String) :
      Reach hp hm s → Reach hp hm (onPeerLeave s peerId)
  | action {s : StoreState} (data : Action) (peerId : String) :
      Reach hp hm s → Reach hp hm (getActionHandler hp s data peerId).1
  | localAdd {s : StoreState} (e : BoardElement) :
      Reach hp hm s → Reach hp hm (addElement s e)
  | localUpdate {s : StoreState} (id : String) (u : ElementUpdates) :
      Reach hp hm s → Reach hp hm (updateElement s id u)
  | localDelete {s : StoreState} (id : String) :
      Reach hp hm s → Reach hp hm (deleteElement s id)
  | claimHost {s : StoreState} : Reach hp hm s → Reach hp hm (setIsHost s true)
  | roomBookkeeping {s : StoreState} (id : String) (now : Int) :
      Reach hp hm s → Reach hp hm (saveRoom (setRoomId s id) id now)
  | rename {s : StoreState} (username : String) :
      Reach hp hm s → Reach hp hm (setUserInfo s username)

-- --- Further record lemmas ---

theorem setKey_eq_of_getKey {α : Type} (r : List (String × α)) (k : String) (v : α)
    (h : getKey r k = some v) : setKey r k v = r := by
  induction r with
  | nil => simp [getKey] at h
  | cons p r ih =>
    by_cases hp : p.1 = k
    · subst hp
      simp only [getKey, if_pos rfl] at h
      cases h
      simp [setKey]
    · simp only [getKey, hp, if_false] at h
      simp [setKey, hp, ih h]

theorem spreadMerge_eq_self {α : Type} (r A : List (String × α))
    (h : ∀ p ∈ A, getKey r p.1 = some p.2) : spreadMerge r A = r := by
  induction A with
  | nil => rfl
  | cons p A ih =>
    show spreadMerge (setKey r p.1 p.2) A = r
    rw [setKey_eq_of_getKey r p.1 p.2 (h p (List.mem_cons_self p A))]
    exact ih (fun q hq => h q (List.mem_cons_of_mem p hq))

/-- Closed form of a merged lookup for a duplicate-free incoming record. -/
theorem getKey_spreadMerge_formula {α : Type} (a b : List (String × α)) (k : String)
    (hn : NodupKeys b) :
    getKey (spreadMerge a b) k = (getKey b k).elim (getKey a k) some := by
  cases h : getKey b k with
  | none => simpa using getKey_spreadMerge_of_absent a b k h
  | some v => simpa using getKey_spreadMerge_of_present a b k v hn h

-- --- isHost projections of the store actions ---

theorem updateElement_isHost (s : StoreState) (id : String) (u : ElementUpdates) :
    (updateElement s id u).isHost = s.isHost := by
  unfold updateElement
  cases getKey s.elements id <;> rfl

theorem getActionHandler_isHost (hp : Option String) (s : StoreState) (a : Action)
    (peerId : String) (h : s.isHost = true) :
    ((getActionHandler hp s a peerId).1).isHost = true := by
  cases a with
  | syncReq p =>
    simp only [getActionHandler]
    split
    · split
      · simp [setIsHost]
      · exact h
    · split
      · split
        · simp [setIsHost]
        · exact h
      · exact h
  | syncResp elements => exact h
  | accessDenied r => exact h
  | addElement e => exact h
  | updateElement id u =>
    show (updateElement s id u).isHost = true
    rw [updateElement_isHost]
    exact h
  | deleteElement id => exact h
  | cursorMove c => exact h

/-- Reachability invariant: while a room password is cached locally (and
truthy), the local peer's host flag stays set — the setup effects set it
and no reachable step clears it. -/
theorem reach_isHost_of_cached_password (hp hm : Option String) (s : StoreState)
    (h : Reach hp hm s) (ht : jsTruthy hp = true) : s.isHost = true := by
  induction h with
  | setup s0 => simp [p2pSetup, ht, setIsHost]
  | board _ _ => simp [boardHostSetup, ht, setIsHost]
  | peerJoin peerId _ ih => exact ih
  | peerLeave peerId _ ih => exact ih
  | action data peerId _ ih => exact getActionHandler_isHost _ _ _ _ ih
  | localAdd e _ ih => exact ih
  | localUpdate id u _ ih => rw [updateElement_isHost]; exact ih
  | localDelete id _ ih => exact ih
  | claimHost _ _ => rfl
  | roomBookkeeping id now _ ih => exact ih
  | rename username _ ih => exact ih

-- --- Concrete sample data for witnesses and counterexamples ---

/-- A sample board element used by witnesses. -/
def seedElement : BoardElement :=
  { id := "e1", type := .sticky, x := 10, y := 20, content := "hello",
    createdBy := "alice", createdAt := some 100 }

/-- A store state holding one element, as a bootstrapping seed peer. -/
def seededState : StoreState :=
  { username := "Happy Fox", userId := "u-alice", elements := [("e1", seedElement)] }

-- --- Claims ---

/-- C9: merging a `SYNC_RESPONSE` snapshot never removes an element — a
key is present in the merged element map exactly when it is present
locally or in the snapshot, and a key absent from the snapshot keeps its
local value. -/
theorem merge_keys_union (s : StoreState) (snapshot : List (String × BoardElement)) :
    (∀ k, getKey (mergeElements s snapshot).elements k ≠ none ↔
        (getKey s.elements k ≠ none ∨ getKey snapshot k ≠ none)) ∧
    (∀ k, getKey snapshot k = none →
        getKey (mergeElements s snapshot).elements k = getKey s.elements k) := by
  constructor
  · intro k
    have h := getKey_spreadMerge_eq_none_iff s.elements snapshot k
    show getKey (spreadMerge s.elements snapshot) k ≠ none ↔ _
    constructor
    · intro hne
      by_contra hc
      push_neg at hc
      exact hne (h.mpr hc)
    · intro hor hn
      rcases hor with ha | hb
      · exact ha (h.mp hn).1
      · exact hb (h.mp hn).2
  · intro k hk
    exact getKey_spreadMerge_of_absent s.elements snapshot k hk

theorem merge_keys_union_witness :
    getKey (mergeElements seededState [("e2", seedElement)]).elements "e1" =
      getKey seededState.elements "e1" :=
  (merge_keys_union seededState [("e2", seedElement)]).2 "e1" (by decide)

/-- C10: `updateElement` with an id that is not in the element map returns
the state unchanged — a remote `UPDATE_ELEMENT` for an unknown element is
dropped and never creates a partial element. -/
theorem updateElement_absent_id_noop (s : StoreState) (id : String)
    (updates : ElementUpdates) (h : getKey s.elements id = none) :
    updateElement s id updates = s := by
  unfold updateElement
  rw [h]

theorem updateElement_absent_id_noop_witness :
    updateElement seededState "ghost" { x := some 42 } = seededState :=
  updateElement_absent_id_noop seededState "ghost" { x := some 42 } (by decide)

/-- C8: processing `CURSOR_MOVE` stores exactly the received payload under
the payload's user id, independent of any previously stored cursor — the
previous entry is overwritten, never merged into the result. -/
theorem cursor_move_overwrites (hostPassword : Option String) (s : StoreState)
    (payload : UserCursor) (peerId : String) :
    getKey ((getActionHandler hostPassword s (.cursorMove payload) peerId).1).cursors
        payload.userId = some (cursorObjOfFull payload) := by
  show getKey (updateCursor s payload.userId (cursorUpdatesOfFull payload)).cursors
      payload.userId = some (cursorObjOfFull payload)
  unfold updateCursor
  rw [getKey_setKey_self]
  rfl

/-- C6: a peer with no cached room password holding at least one element
answers every inbound `SYNC_REQUEST` — with or without a password — with a
`SYNC_RESPONSE` carrying its full current element map. -/
theorem public_seed_answers_sync_req (s : StoreState) (hne : s.elements ≠ [])
    (password : Option String) (peerId : String) :
    (getActionHandler none s (.syncReq password) peerId).2 =
      [(Action.syncResp s.elements, peerId)] := by
  simp [getActionHandler, jsTruthy, hne]

theorem public_seed_answers_sync_req_witness :
    (getActionHandler none seededState (.syncReq none) "p1").2 =
      [(Action.syncResp seededState.elements, "p1")] :=
  public_seed_answers_sync_req seededState (by decide) none "p1"

/-- C7: a peer with an empty element map and a cleared host flag never
sends a `SYNC_RESPONSE` from its peer-join handler — it only announces
its cursor and waits to receive state. -/
theorem empty_nonhost_never_pushes (hostPassword : Option String) (s : StoreState)
    (peerId : String) (hempty : s.elements = []) (hhost : s.isHost = false) :
    ∀ elements target,
      (Action.syncResp elements, target) ∉ (onPeerJoin hostPassword s peerId).2 := by
  intro elements target
  have h1 : (addPeer s peerId).elements = s.elements := rfl
  have h2 : (addPeer s peerId).isHost = s.isHost := rfl
  simp only [onPeerJoin]
  simp [h1, h2, hempty, hhost]

theorem empty_nonhost_never_pushes_witness :
    (Action.syncResp [], "pX") ∉ (onPeerJoin none ({} : StoreState) "p9").2 :=
  empty_nonhost_never_pushes none {} "p9" rfl rfl [] "pX"

/-- C4: with a cached (non-empty) room password, an inbound `SYNC_REQUEST`
carrying exactly that password is answered with a `SYNC_RESPONSE` holding
the peer's elements, and one carrying a different or no password is
answered with `ACCESS_DENIED` reason "Incorrect Password" and never with
the elements. -/
theorem protected_sync_req_gate (hostPassword : String) (hne : hostPassword ≠ "")
    (s : StoreState) (peerId : String) :
    (getActionHandler (some hostPassword) s (.syncReq (some hostPassword)) peerId).2 =
      [(Action.syncResp s.elements, peerId)] ∧
    ∀ password : Option String, password ≠ some hostPassword →
      (getActionHandler (some hostPassword) s (.syncReq password) peerId).2 =
        [(Action.accessDenied "Incorrect Password", peerId)] := by
  constructor
  · simp [getActionHandler, jsTruthy, hne]
  · intro password hq
    simp [getActionHandler, jsTruthy, hne, hq]

theorem protected_sync_req_gate_witness :
    ("secret" : String) ≠ "" ∧
    (getActionHandler (some "secret") seededState (.syncReq (some "secret")) "p1").2 =
      [(Action.syncResp seededState.elements, "p1")] ∧
    (getActionHandler (some "secret") seededState (.syncReq none) "p1").2 =
      [(Action.accessDenied "Incorrect Password", "p1")] ∧
    (getActionHandler (some "secret") seededState (.syncReq (some "wrong")) "p1").2 =
      [(Action.accessDenied "Incorrect Password", "p1")] :=
  ⟨by decide,
   (protected_sync_req_gate "secret" (by decide) seededState "p1").1,
   (protected_sync_req_gate "secret" (by decide) seededState "p1").2 none (by decide),
   (protected_sync_req_gate "secret" (by decide) seededState "p1").2 (some "wrong") (by decide)⟩

/-- C3: in every reachable store state, a peer holding a non-empty element
map — or marked host of an empty room — proactively sends the joining
peer a `SYNC_RESPONSE` with its full element map from the peer-join
handler, without waiting for a `SYNC_REQUEST`.  (For a password-protected
room this rests on the proven invariant that a cached password keeps the
host flag set.) -/
theorem peer_join_proactive_push (hp hm : Option String) (s : StoreState) (peerId : String)
    (hr : Reach hp hm s)
    (hholds : s.elements ≠ [] ∨ (s.isHost = true ∧ s.elements = [])) :
    (Action.syncResp s.elements, peerId) ∈ (onPeerJoin hp s peerId).2 := by
  have h1 : (addPeer s peerId).elements = s.elements := rfl
  have h2 : (addPeer s peerId).isHost = s.isHost := rfl
  simp only [onPeerJoin]
  rcases hholds with hne | ⟨hhost, hemp⟩
  · by_cases hpw : jsTruthy hp = true
    · have hh := reach_isHost_of_cached_password hp hm s hr hpw
      simp [h1, h2, hne, hpw, hh]
    · have hpw' : jsTruthy hp = false := by
        cases hx : jsTruthy hp
        · rfl
        · exact absurd hx hpw
      simp [h1, h2, hne, hpw']
  · simp [h1, h2, hhost, hemp]

theorem peer_join_proactive_push_witness :
    (Action.syncResp seededState.elements, "p2") ∈ (onPeerJoin none seededState "p2").2 :=
  peer_join_proactive_push none none seededState "p2" (Reach.setup seededState)
    (Or.inl (by decide))

-- --- C1: merge and the recency signal ---

/-- Modelled from the spec: the recency signal
`lastModifiedAt ?? createdAt ?? 0` the merge is said to compare. -/
def specRecency (e : BoardElement) : Int :=
  (e.lastModifiedAt.getD (e.createdAt.getD 0))

/-- A locally held element last modified at time 500. -/
def freshElement : BoardElement :=
  { seedElement with content := "fresh", lastModifiedAt := some 500 }

/-- An incoming copy of the same element, last modified earlier (300). -/
def staleElement : BoardElement :=
  { id := "e1", type := .sticky, x := 3, y := 4, content := "stale",
    createdBy := "bob", createdAt := some 100, lastModifiedAt := some 300 }

/-- A local store state holding the fresher element. -/
def freshState : StoreState := { elements := [("e1", freshElement)] }

/-- C1 counterexample: `mergeElements` consults no timestamps — an
incoming element whose recency signal (300) is strictly smaller than the
local one's (500) still replaces the local element, contradicting the
claimed keep-the-strictly-greater rule. -/
theorem merge_ignores_recency_cx :
    specRecency freshElement > specRecency staleElement ∧
    getKey (mergeElements freshState [("e1", staleElement)]).elements "e1" =
      some staleElement ∧
    staleElement ≠ freshElement := by decide

/-- C1 (amended): for every id present in a (duplicate-free) incoming
snapshot, the merge keeps the incoming element unconditionally — the
recency signal is never consulted; an id absent from the snapshot keeps
the local element. -/
theorem merge_incoming_wins (s : StoreState) (snapshot : List (String × BoardElement))
    (hn : NodupKeys snapshot) :
    (∀ id e, getKey snapshot id = some e →
        getKey (mergeElements s snapshot).elements id = some e) ∧
    (∀ id, getKey snapshot id = none →
        getKey (mergeElements s snapshot).elements id = getKey s.elements id) := by
  constructor
  · intro id e he
    exact getKey_spreadMerge_of_present s.elements snapshot id e hn he
  · intro id he
    exact getKey_spreadMerge_of_absent s.elements snapshot id he

theorem merge_incoming_wins_witness :
    getKey (mergeElements freshState [("e1", staleElement)]).elements "e1" =
      some staleElement :=
  (merge_incoming_wins freshState [("e1", staleElement)] (by decide)).1 "e1"
    staleElement (by decide)

-- --- C2: algebraic laws of the merge ---

/-- One version of a contested element. -/
def elemVariantA : BoardElement := { seedElement with content := "version A" }

/-- A conflicting version of the same element id. -/
def elemVariantB : BoardElement := { seedElement with content := "version B" }

/-- C2 counterexample: with two snapshots assigning different elements to
the same id, merging A then B and merging B then A disagree — whichever
snapshot is merged last wins, so the merge is not commutative. -/
theorem merge_not_commutative_cx :
    (mergeElements (mergeElements ({} : StoreState) [("e1", elemVariantA)])
        [("e1", elemVariantB)]).elements ≠
      (mergeElements (mergeElements ({} : StoreState) [("e1", elemVariantB)])
        [("e1", elemVariantA)]).elements ∧
    getKey (mergeElements (mergeElements ({} : StoreState) [("e1", elemVariantA)])
        [("e1", elemVariantB)]).elements "e1" = some elemVariantB ∧
    getKey (mergeElements (mergeElements ({} : StoreState) [("e1", elemVariantB)])
        [("e1", elemVariantA)]).elements "e1" = some elemVariantA ∧
    elemVariantB ≠ elemVariantA := by decide

/-- C2 (amended): the merge is idempotent — merging the same
(duplicate-free) snapshot twice yields the same element map as merging it
once; merging two snapshots in either order yields the same map only when
the snapshots assign equal elements to every shared id (for conflicting
snapshots the later merge wins, so unrestricted commutativity fails). -/
theorem merge_idempotent_and_conditionally_commutative
    (s : StoreState) (A B : List (String × BoardElement))
    (hnA : NodupKeys A) (hnB : NodupKeys B)
    (hagree : ∀ p ∈ A, ∀ q ∈ B, p.1 = q.1 → p.2 = q.2) :
    (mergeElements (mergeElements s A) A).elements = (mergeElements s A).elements ∧
    RecEquiv (mergeElements (mergeElements s A) B).elements
      (mergeElements (mergeElements s B) A).elements := by
  constructor
  · show spreadMerge (spreadMerge s.elements A) A = spreadMerge s.elements A
    apply spreadMerge_eq_self
    intro p hp
    exact getKey_spreadMerge_of_present _ _ _ _ hnA
      (getKey_eq_some_of_mem_nodup A p.1 p.2 hnA hp)
  · intro k
    show getKey (spreadMerge (spreadMerge s.elements A) B) k =
        getKey (spreadMerge (spreadMerge s.elements B) A) k
    rw [getKey_spreadMerge_formula (spreadMerge s.elements A) B k hnB,
        getKey_spreadMerge_formula s.elements A k hnA,
        getKey_spreadMerge_formula (spreadMerge s.elements B) A k hnA,
        getKey_spreadMerge_formula s.elements B k hnB]
    cases hA : getKey A k with
    | none => cases hB : getKey B k <;> simp
    | some va =>
      cases hB : getKey B k with
      | none => simp
      | some vb =>
        have hvab : va = vb :=
          hagree (k, va) (mem_of_getKey_eq_some A k va hA)
            (k, vb) (mem_of_getKey_eq_some B k vb hB) rfl
        simp [hvab]

/-- Snapshot pair agreeing on their one shared id. -/
def agreeSnapA : List (String × BoardElement) := [("a1", elemVariantA)]

/-- Second snapshot of the agreeing pair. -/
def agreeSnapB : List (String × BoardElement) :=
  [("b1", elemVariantB), ("a1", elemVariantA)]

theorem merge_idempotent_and_conditionally_commutative_witness :
    (mergeElements (mergeElements seededState agreeSnapA) agreeSnapA).elements =
      (mergeElements seededState agreeSnapA).elements ∧
    RecEquiv (mergeElements (mergeElements seededState agreeSnapA) agreeSnapB).elements
      (mergeElements (mergeElements seededState agreeSnapB) agreeSnapA).elements :=
  merge_idempotent_and_conditionally_commutative seededState agreeSnapA agreeSnapB
    (by decide) (by decide) (by decide)

-- --- C5: cursor removal on peer departure ---

/-- The cursor payload broadcast by a peer whose transport id is
"peer-bob" but whose application user id is "u-bob" (the store generates
its own user id; it is unrelated to the transport peer id). -/
def departingCursor : UserCursor :=
  { x := 5, y := 7, userId := "u-bob", username := "Silent Wolf", color := "#8b5cf6" }

/-- C5 at the failing input: after processing "peer-bob"'s `CURSOR_MOVE`
(stored under the payload's `userId` "u-bob") and then its `onPeerLeave`,
the entry written by the `CURSOR_MOVE` is still in the cursor map —
`onPeerLeave` removed the key "peer-bob", which `CURSOR_MOVE` never
writes, leaving a ghost cursor. -/
theorem ghost_cursor_after_peer_leave :
    getKey (onPeerLeave
        ((getActionHandler none seededState (.cursorMove departingCursor) "peer-bob").1)
        "peer-bob").cursors "u-bob" = some (cursorObjOfFull departingCursor) ∧
    getKey (onPeerLeave
        ((getActionHandler none seededState (.cursorMove departingCursor) "peer-bob").1)
        "peer-bob").cursors "peer-bob" = none := by decide

end Realim
